import Mathlib

/-!
Verification of the torrent-reconciliation program (`main.py`).

The program parses `.zurginfo` (JSON) and `.zurgtorrent` (bencoded) sidecar
files into a SQLite table `torrents (hash TEXT PRIMARY KEY, torname TEXT,
status INTEGER DEFAULT 0)`, then reconciles each record against a remote
file listing: records already present remotely (fuzzy match) or successfully
submitted to Real-Debrid are marked `status = 1`; failures leave `status = 0`.

This file is a shallow embedding of that program:
* the SQLite table is a list of rows in rowid (insertion) order;
* SQL `WHERE hash = ?` comparisons follow SQL three-valued logic: a
  comparison against NULL never matches (this matters: the Python code can
  pass `None` for the hash);
* external effects (the HTTP response from Real-Debrid, the rclone listing,
  the fuzzy-ratio library function) are explicit parameters of the functions
  that consume them;
* fallible Python code is embedded in `Except PyError`.
-/

/-! ## Registry rows (the SQLite `torrents` table, main.py lines 58-103)

A row of the `torrents` table.  `hash` and `torname` are TEXT columns that
may hold SQL NULL (the parser stores `data.get('hash')` / `data.get('filename')`,
which are `None` when the key is absent), hence `Option String`.
`status` is the INTEGER column (0 = pending, 1 = satisfied). -/
structure TorrentRow where
  hash : Option String
  torname : Option String
  status : Nat
deriving DecidableEq, Repr

/-- The `torrents` table: rows in rowid (insertion) order.  The program only
ever inserts (never deletes), so `SELECT` without `ORDER BY` returns this
order and appended rows model new inserts. -/
abbrev DB := List TorrentRow

/-- SQL equality of two nullable TEXT values under three-valued logic:
`x = y` is satisfied only when both sides are non-NULL and equal.
In particular `hash = ?` with a NULL parameter matches no row, and a stored
NULL hash matches no parameter. -/
def sqlEq (a b : Option String) : Bool :=
  match a, b with
  | some x, some y => x = y
  | _, _ => false

/-- The `SELECT 1 FROM torrents WHERE hash = ?` existence probe of
`insert_or_update_torrent` (main.py line 76): true iff some row's `hash`
SQL-equals the parameter. -/
def hashExists (db : DB) (h : Option String) : Bool :=
  db.any (fun r => sqlEq r.hash h)

/-- Effect of `UPDATE torrents SET torname = ?, status = ? WHERE hash = ?`
(main.py lines 86-89) on a single row: rows whose hash SQL-equals the
torrent's hash get the torrent's `torname` and `status`. -/
def updOne (t : TorrentRow) (r : TorrentRow) : TorrentRow :=
  if sqlEq r.hash t.hash then { r with torname := t.torname, status := t.status } else r

/-- `insert_or_update_torrent(conn, torrent)` (main.py lines 74-91): if no row
with the torrent's hash exists, INSERT a new row (returns `true`, "new
torrent added"); otherwise UPDATE `torname` and `status` of the matching
rows in place (returns `false`, "torrent already existed"). -/
def insert_or_update_torrent (db : DB) (t : TorrentRow) : DB × Bool :=
  if hashExists db t.hash then
    (db.map (updOne t), false)
  else
    (db ++ [t], true)

/-- The database after `insert_or_update_torrent` (discarding the new/existing
flag). -/
def upsertDb (db : DB) (t : TorrentRow) : DB :=
  (insert_or_update_torrent db t).1

/-- `update_torrent_status(conn, torrent_hash, status)` (main.py lines 94-97):
`UPDATE torrents SET status = ? WHERE hash = ?`. -/
def update_torrent_status (db : DB) (h : Option String) (status : Nat) : DB :=
  db.map (fun r => if sqlEq r.hash h then { r with status := status } else r)

/-- `fetch_all_torrents(conn)` (main.py lines 100-103):
`SELECT hash, torname, status FROM torrents` in rowid order. -/
def fetch_all_torrents (db : DB) : List TorrentRow := db

/-! ## The .zurginfo decoder (main.py lines 136-149) -/

/-- One `.zurginfo` JSON sidecar as seen by the parser (§4.1 Decoder A):
a flat mapping whose `hash` and `filename` string fields are extracted with
`data.get(...)`, i.e. either may be absent (`None`). -/
structure ZurginfoData where
  hash : Option String
  filename : Option String
deriving DecidableEq, Repr

/-- The torrent dict built from a `.zurginfo` file (main.py lines 140-144):
`{'hash': data.get('hash'), 'status': 0, 'torname': data.get('filename')}`.
Note the status is the constant 0 and absent fields become NULL. -/
def zurginfoRecord (d : ZurginfoData) : TorrentRow :=
  { hash := d.hash, torname := d.filename, status := 0 }

/-! ## Registry operation sequences

The two registry mutations the program can ever perform (`§4.6` of the
spec): a parser upsert — whose payload status is always the constant 0,
see `zurginfoRecord` and `parseZurgtorrent` below — and the orchestrator's
`update_torrent_status(conn, hash, 1)` calls (main.py lines 279 and 287,
always with status 1). -/
inductive RegOp where
  | parseUpsert (hash : Option String) (torname : Option String)
  | orchSetSatisfied (hash : Option String)
deriving DecidableEq, Repr

/-- Apply one reachable registry operation. -/
def applyOp (db : DB) : RegOp → DB
  | .parseUpsert h n => upsertDb db { hash := h, torname := n, status := 0 }
  | .orchSetSatisfied h => update_torrent_status db h 1

/-- Apply a sequence of reachable registry operations. -/
def applyOps (db : DB) (ops : List RegOp) : DB :=
  ops.foldl applyOp db

/-- A parse run over an already-extracted list of torrent records: the fold
of `insert_or_update_torrent` in directory-walk order (main.py pipeline of
`parse_torrent_files_recursively`, lines 128-185: each successfully decoded
file is immediately upserted). -/
def parseRun (ts : List TorrentRow) (db : DB) : DB :=
  ts.foldl upsertDb db

/-! ## Bencoded values (the .zurgtorrent decoder's input, main.py lines 152-177)

`bencodepy.decode` yields ints, byte strings, lists and dictionaries.
Mutual inductives (instead of a nested `List`) keep every function on them
structurally recursive, hence computable by the kernel. -/
mutual
inductive Bencode where
  | int (n : Int)
  | str (s : List Nat)
  | blist (xs : BList)
  | bdict (kvs : BPairs)
deriving DecidableEq, Repr

inductive BList where
  | nil
  | cons (hd : Bencode) (tl : BList)
deriving DecidableEq, Repr

inductive BPairs where
  | nil
  | cons (key : List Nat) (val : Bencode) (tl : BPairs)
deriving DecidableEq, Repr
end

/-- Python dict lookup `d[key]` / `key in d` on a decoded bencode dictionary
(keys are unique in a decoded dict, so first match suffices). -/
def lookupKey (key : List Nat) : BPairs → Option Bencode
  | .nil => none
  | .cons k v tl => if k = key then some v else lookupKey key tl

/-- Lexicographic byte-wise order on keys, as Python compares `bytes`
(shorter prefix sorts first). -/
def keyLe (a b : List Nat) : Bool :=
  match a, b with
  | [], _ => true
  | _ :: _, [] => false
  | x :: xs, y :: ys => if x < y then true else if y < x then false else keyLe xs ys

/-- Insert one key-value pair into a key-sorted pair list. -/
def insertPair (k : List Nat) (v : Bencode) : BPairs → BPairs
  | .nil => .cons k v .nil
  | .cons k' v' tl => if keyLe k k' then .cons k v (.cons k' v' tl)
                      else .cons k' v' (insertPair k v tl)

/-- Sort a dictionary's pairs by key (insertion sort).  `bencodepy.encode`
emits dictionary items in sorted key order. -/
def sortPairs : BPairs → BPairs
  | .nil => .nil
  | .cons k v tl => insertPair k v (sortPairs tl)

mutual
/-- Sort every dictionary inside a bencoded value by key.  Encoding the
result without further sorting equals `bencodepy.encode`, which sorts each
dictionary as it encodes it. -/
def sortDeep : Bencode → Bencode
  | .int n => .int n
  | .str s => .str s
  | .blist xs => .blist (sortDeepList xs)
  | .bdict kvs => .bdict (sortPairs (sortDeepPairs kvs))

def sortDeepList : BList → BList
  | .nil => .nil
  | .cons x xs => .cons (sortDeep x) (sortDeepList xs)

def sortDeepPairs : BPairs → BPairs
  | .nil => .nil
  | .cons k v tl => .cons k (sortDeep v) (sortDeepPairs tl)
end

/-- ASCII bytes of the decimal representation of a natural number. -/
def natDigits (n : Nat) : List Nat :=
  (Nat.toDigits 10 n).map Char.toNat

/-- ASCII bytes of a bencoded integer payload (Python `str(int)` form,
with a leading `-` for negatives). -/
def intDigits (n : Int) : List Nat :=
  if n < 0 then 0x2D :: natDigits n.natAbs else natDigits n.toNat

/-- Bencode byte-string header: decimal length then `:`. -/
def strHeader (s : List Nat) : List Nat :=
  natDigits s.length ++ [0x3A]

mutual
/-- Bencode encoding of a value whose dictionaries are already sorted:
`i<int>e`, `<len>:<bytes>`, `l...e`, `d...e`. -/
def encodeRaw : Bencode → List Nat
  | .int n => 0x69 :: intDigits n ++ [0x65]
  | .str s => strHeader s ++ s
  | .blist xs => 0x6C :: encodeRawList xs ++ [0x65]
  | .bdict kvs => 0x64 :: encodeRawPairs kvs ++ [0x65]

def encodeRawList : BList → List Nat
  | .nil => []
  | .cons x xs => encodeRaw x ++ encodeRawList xs

def encodeRawPairs : BPairs → List Nat
  | .nil => []
  | .cons k v tl => strHeader k ++ k ++ encodeRaw v ++ encodeRawPairs tl
end

/-- `bencodepy.encode`: canonical bencoding, every dictionary emitted in
sorted key order. -/
def bencodeEncode (b : Bencode) : List Nat :=
  encodeRaw (sortDeep b)

/-! ## SHA-1 (`hashlib.sha1(...).hexdigest().upper()`, main.py line 160)

A direct implementation of FIPS 180 SHA-1 over byte lists.  Machine words
are `Nat` reduced `% 2^32` wherever overflow matters.  Recursion is fuelled
by explicit structural counters so the kernel can evaluate digests. -/

/-- Two to the thirty-two, the word modulus. -/
def M32 : Nat := 4294967296

/-- Rotate a 32-bit word left by `s` bits. -/
def rotl32 (s x : Nat) : Nat :=
  ((x <<< s) % M32) ||| (x >>> (32 - s))

/-- SHA-1 message padding: append `0x80`, then zeros to 56 mod 64 bytes,
then the original length in bits as 8 big-endian bytes. -/
def sha1Pad (msg : List Nat) : List Nat :=
  let bitLen := 8 * msg.length
  let zeros := (55 + 64 - msg.length % 64) % 64
  msg ++ [0x80] ++ List.replicate zeros 0 ++
    [bitLen >>> 56 % 256, bitLen >>> 48 % 256, bitLen >>> 40 % 256, bitLen >>> 32 % 256,
     bitLen >>> 24 % 256, bitLen >>> 16 % 256, bitLen >>> 8 % 256, bitLen % 256]

/-- Split a list into chunks of 64, fuelled by the list length (each step
consumes at least one element, so `fuel = length` never truncates). -/
def chunks64 : Nat → List Nat → List (List Nat)
  | 0, _ => []
  | _, [] => []
  | fuel + 1, l => l.take 64 :: chunks64 fuel (l.drop 64)

/-- Combine 4 consecutive bytes into big-endian 32-bit words. -/
def words32 : List Nat → List Nat
  | b0 :: b1 :: b2 :: b3 :: rest => (((b0 * 256 + b1) * 256 + b2) * 256 + b3) :: words32 rest
  | _ => []

/-- One step of the SHA-1 message schedule:
`w[i] = rotl1 (w[i-3] xor w[i-8] xor w[i-14] xor w[i-16])` appended to the
accumulated schedule, repeated `n` times. -/
def sha1Expand (ws : List Nat) : Nat → List Nat
  | 0 => ws
  | n + 1 =>
      let l := ws.length
      sha1Expand (ws ++ [rotl32 1 (ws.getD (l - 3) 0 ^^^ ws.getD (l - 8) 0 ^^^
        ws.getD (l - 14) 0 ^^^ ws.getD (l - 16) 0)]) n

/-- The SHA-1 round function and constant for round `i`. -/
def sha1FK (i b c d : Nat) : Nat × Nat :=
  if i < 20 then ((b &&& c) ||| ((b ^^^ 4294967295) &&& d), 1518500249)
  else if i < 40 then (b ^^^ c ^^^ d, 1859775393)
  else if i < 60 then ((b &&& c) ||| (b &&& d) ||| (c &&& d), 2400959708)
  else (b ^^^ c ^^^ d, 3395469782)

/-- The 80 compression rounds of one block, `i` counting up as the schedule
words are consumed. -/
def sha1Rounds (i : Nat) (st : Nat × Nat × Nat × Nat × Nat) : List Nat → Nat × Nat × Nat × Nat × Nat
  | [] => st
  | w :: ws =>
      let (a, b, c, d, e) := st
      let (f, k) := sha1FK i b c d
      sha1Rounds (i + 1) ((rotl32 5 a + f + e + k + w) % M32, a, rotl32 30 b, c, d) ws

/-- Process one 64-byte block into the running hash state. -/
def sha1Block (h : Nat × Nat × Nat × Nat × Nat) (block : List Nat) : Nat × Nat × Nat × Nat × Nat :=
  let (h0, h1, h2, h3, h4) := h
  let w := sha1Expand (words32 block) 64
  let (a, b, c, d, e) := sha1Rounds 0 h w
  ((h0 + a) % M32, (h1 + b) % M32, (h2 + c) % M32, (h3 + d) % M32, (h4 + e) % M32)

/-- Big-endian bytes of one 32-bit word. -/
def wordBytes (w : Nat) : List Nat :=
  [w >>> 24 % 256, w >>> 16 % 256, w >>> 8 % 256, w % 256]

/-- The 20-byte SHA-1 digest of a byte list. -/
def sha1 (msg : List Nat) : List Nat :=
  let padded := sha1Pad msg
  let (h0, h1, h2, h3, h4) :=
    (chunks64 padded.length padded).foldl sha1Block
      (1732584193, 4023233417, 2562383102, 271733878, 3285377520)
  wordBytes h0 ++ wordBytes h1 ++ wordBytes h2 ++ wordBytes h3 ++ wordBytes h4

/-- Lowercase hex character of a nibble, as Python's `hexdigest` emits. -/
def hexChar (n : Nat) : Char :=
  if n < 10 then Char.ofNat (0x30 + n) else Char.ofNat (0x57 + n)

/-- Python `hexdigest()`: lowercase hex string of a byte list. -/
def hexdigest (bytes : List Nat) : String :=
  String.mk (bytes.foldr (fun b acc => hexChar (b / 16 % 16) :: hexChar (b % 16) :: acc) [])

/-- Python `str.upper()` (the program uppercases the hex digest), mapped
over the character list so the kernel can evaluate it. -/
def pyUpper (s : String) : String :=
  String.mk (s.data.map Char.toUpper)

/-- `hashlib.sha1(bytes).hexdigest().upper()` exactly as main.py line 160
computes the infohash. -/
def sha1HexUpper (msg : List Nat) : String :=
  pyUpper (hexdigest (sha1 msg))

/-! ## UTF-8 decoding (`torname.decode('utf-8', 'ignore')`, main.py line 165)

CPython's UTF-8 decoder with its error handlers.  `utf8Step` consumes one
code point (or one maximal invalid subpart, per CPython/Unicode practice)
and reports the remaining bytes; the driver is fuelled by the input length
(each step consumes at least the lead byte, so fuel never runs out). -/

deriving instance DecidableEq for Except

/-- CPython's three UTF-8 error handlers that matter here. -/
inductive Utf8Policy where
  | strict
  | ignore
  | replace
deriving DecidableEq, Repr

/-- Is this byte a UTF-8 continuation byte? -/
def isCont (c : Nat) : Bool := 0x80 ≤ c && c ≤ 0xBF

/-- Decode one UTF-8 sequence starting at lead byte `b` with following bytes
`rest`.  Returns the code point (or an error for an invalid/truncated
sequence) and the bytes not consumed.  Sequence forms and the continuation
ranges that exclude overlong encodings and surrogates follow RFC 3629 as
CPython implements it; on error exactly the maximal valid prefix of the
sequence is consumed. -/
def utf8Step (b : Nat) (rest : List Nat) : Except Unit Char × List Nat :=
  if b < 0x80 then (.ok (Char.ofNat b), rest)
  else if 0xC2 ≤ b && b ≤ 0xDF then
    match rest with
    | c :: r =>
        if isCont c then (.ok (Char.ofNat ((b - 0xC0) * 64 + (c - 0x80))), r)
        else (.error (), rest)
    | [] => (.error (), rest)
  else if 0xE0 ≤ b && b ≤ 0xEF then
    let lo1 := if b = 0xE0 then 0xA0 else 0x80
    let hi1 := if b = 0xED then 0x9F else 0xBF
    match rest with
    | c1 :: r1 =>
        if lo1 ≤ c1 && c1 ≤ hi1 then
          match r1 with
          | c2 :: r2 =>
              if isCont c2 then
                (.ok (Char.ofNat ((b - 0xE0) * 4096 + (c1 - 0x80) * 64 + (c2 - 0x80))), r2)
              else (.error (), r1)
          | [] => (.error (), r1)
        else (.error (), rest)
    | [] => (.error (), rest)
  else if 0xF0 ≤ b && b ≤ 0xF4 then
    let lo1 := if b = 0xF0 then 0x90 else 0x80
    let hi1 := if b = 0xF4 then 0x8F else 0xBF
    match rest with
    | c1 :: r1 =>
        if lo1 ≤ c1 && c1 ≤ hi1 then
          match r1 with
          | c2 :: r2 =>
              if isCont c2 then
                match r2 with
                | c3 :: r3 =>
                    if isCont c3 then
                      (.ok (Char.ofNat ((b - 0xF0) * 262144 + (c1 - 0x80) * 4096 +
                        (c2 - 0x80) * 64 + (c3 - 0x80))), r3)
                    else (.error (), r2)
                | [] => (.error (), r2)
              else (.error (), r1)
          | [] => (.error (), r1)
        else (.error (), rest)
    | [] => (.error (), rest)
  else (.error (), rest)

/-- Fuelled UTF-8 decode loop: `strict` raises on the first bad sequence,
`ignore` drops it, `replace` substitutes U+FFFD. -/
def utf8DecodeF (p : Utf8Policy) : Nat → List Nat → Except Unit (List Char)
  | _, [] => .ok []
  | 0, _ :: _ => .ok []
  | fuel + 1, b :: rest =>
      match utf8Step b rest with
      | (.ok c, rem) => (utf8DecodeF p fuel rem).map (fun cs => c :: cs)
      | (.error _, rem) =>
          match p with
          | .strict => .error ()
          | .ignore => utf8DecodeF p fuel rem
          | .replace => (utf8DecodeF p fuel rem).map (fun cs => Char.ofNat 0xFFFD :: cs)

/-- `bytes.decode('utf-8', <policy>)`. -/
def utf8Decode (p : Utf8Policy) (bytes : List Nat) : Except Unit (List Char) :=
  utf8DecodeF p bytes.length bytes

/-- `torname.decode('utf-8', 'ignore')` as a total string: the `ignore`
handler never raises (proved below as `utf8Decode_ignore_ok`). -/
def pyDecodeIgnore (bytes : List Nat) : String :=
  String.mk ((utf8Decode .ignore bytes).toOption.getD [])

/-! ## Python `str()` of decoded bencode values (main.py line 167)

`torname = str(torname)` runs only when `info[b'name']` is not `bytes`
(a malformed torrent).  For ints, `str` is the decimal form; for the
container types `bencodepy.decode` produces, `str` falls back to `repr`,
whose bytes literals follow CPython's quoting and escaping rules. -/

/-- CPython `repr` of a `bytes` object: `b'...'` (or `b"..."` when the bytes
contain a single quote but no double quote), with backslash, the chosen
quote, tab, newline and carriage return escaped, printable ASCII literal,
and everything else as lowercase `\xhh`. -/
def pyBytesRepr (bs : List Nat) : String :=
  let q : Nat := if bs.contains 0x27 && !(bs.contains 0x22) then 0x22 else 0x27
  let esc : Nat → List Char := fun b =>
    if b = 0x5C then ['\\', '\\']
    else if b = q then ['\\', Char.ofNat q]
    else if b = 9 then ['\\', 't']
    else if b = 10 then ['\\', 'n']
    else if b = 13 then ['\\', 'r']
    else if 0x20 ≤ b && b ≤ 0x7E then [Char.ofNat b]
    else ['\\', 'x', hexChar (b / 16 % 16), hexChar (b % 16)]
  String.mk ('b' :: Char.ofNat q :: bs.foldr (fun b acc => esc b ++ acc) [Char.ofNat q])

mutual
/-- CPython `str`/`repr` of a value decoded by `bencodepy` (ints print in
decimal, bytes as `b'...'` literals, lists and dicts with their elements'
reprs; for all of these `str` coincides with `repr`). -/
def pyStr : Bencode → String
  | .int n => toString n
  | .str bs => pyBytesRepr bs
  | .blist xs => "[" ++ pyStrList xs ++ "]"
  | .bdict kvs => "\x7b" ++ pyStrPairs kvs ++ "\x7d"

def pyStrList : BList → String
  | .nil => ""
  | .cons x .nil => pyStr x
  | .cons x (.cons y tl) => pyStr x ++ ", " ++ pyStrList (.cons y tl)

def pyStrPairs : BPairs → String
  | .nil => ""
  | .cons k v .nil => pyBytesRepr k ++ ": " ++ pyStr v
  | .cons k v (.cons k' v' tl) =>
      pyBytesRepr k ++ ": " ++ pyStr v ++ ", " ++ pyStrPairs (.cons k' v' tl)
end

/-- The display name stored for a `.zurgtorrent` (main.py lines 163-167):
bytes are decoded as UTF-8 with the `ignore` error handler, anything else
goes through `str(...)`. -/
def decodeTorname : Bencode → String
  | .str bs => pyDecodeIgnore bs
  | v => pyStr v

/-- The bytes of `b'info'`. -/
def infoKey : List Nat := [0x69, 0x6E, 0x66, 0x6F]

/-- The bytes of `b'name'`. -/
def nameKey : List Nat := [0x6E, 0x61, 0x6D, 0x65]

/-- The `.zurgtorrent` decoder (main.py lines 154-183) applied to the value
returned by `bencodepy.decode`: requires a dictionary with an `info` entry,
derives the infohash as `hashlib.sha1(bencodepy.encode(info)).hexdigest().upper()`,
requires `info[b'name']` for the display name, and builds the torrent dict
with status 0.  `none` models every skipped-with-logged-error path:
missing `info`, missing `name`, and the `TypeError` paths a non-dictionary
`data` or `info` produces inside the surrounding `except` blocks. -/
def parseZurgtorrent (data : Bencode) : Option TorrentRow :=
  match data with
  | .bdict kvs =>
      match lookupKey infoKey kvs with
      | some info =>
          let infohash := sha1HexUpper (bencodeEncode info)
          match info with
          | .bdict ikvs =>
              match lookupKey nameKey ikvs with
              | some nameVal =>
                  some { hash := some infohash, torname := some (decodeTorname nameVal), status := 0 }
              | none => none
          | _ => none
      | none => none
  | _ => none

/-! ## Python exceptions that the embedded functions can raise -/

/-- The Python exceptions reachable in the modelled fragment. -/
inductive PyError where
  /-- `None.lower()` in `match_in_parallel` (main.py line 230). -/
  | attributeError
  /-- `torrent_info['id']` on a 201 body without `id` (main.py line 248). -/
  | keyError
  /-- `response.json()` on an unparsable 201 body (main.py line 247). -/
  | jsonDecodeError
deriving DecidableEq, Repr

/-! ## The existence matcher (`match_in_parallel`, main.py lines 228-235) -/

/-- Python `str.lower()`, character-wise (ASCII case folding; the names the
program compares are drawn from filenames). -/
def pyLower (s : String) : String :=
  String.mk (s.data.map Char.toLower)

/-- `match_in_parallel(file_list, torrent_name, match_threshold)`:
submits `fuzz.ratio(torrent_name.lower(), file_name.lower())` for every
entry, then returns true as soon as any ratio meets or exceeds the
threshold, false otherwise.  The similarity function itself is the external
`fuzz.ratio` (0-100 scale), taken as the explicit parameter `similarity`.
Two Python details are preserved: the list comprehension never evaluates
`torrent_name.lower()` when `file_list` is empty, and a `None` name raises
`AttributeError` on the first evaluation. -/
def match_in_parallel (similarity : String → String → Nat) (file_list : List String)
    (torrent_name : Option String) (match_threshold : Nat) : Except PyError Bool :=
  match file_list with
  | [] => .ok false
  | _ =>
      match torrent_name with
      | none => .error .attributeError
      | some name =>
          .ok (file_list.any (fun f => match_threshold ≤ similarity (pyLower name) (pyLower f)))

/-! ## The submission client (`add_torrent_to_rd`, main.py lines 238-256) -/

/-- The outcome of the one `requests.post` call the client makes: either the
request timed out (`requests.Timeout`, which the code catches) or a response
arrived, carrying a status code and — when the body parses as a JSON
object — its string fields. -/
inductive RDOutcome where
  | timeout
  | response (status : Nat) (body : Option (List (String × String)))
deriving DecidableEq, Repr

/-- Python dict `.get`-style lookup on a parsed JSON object (last write
wins, as repeated keys in parsed JSON overwrite). -/
def pyLookup (kvs : List (String × String)) (key : String) : Option String :=
  (kvs.reverse.find? (fun kv => kv.1 = key)).map (fun kv => kv.2)

/-- `add_torrent_to_rd(api_key, magnet_hash, torrent_name, timeout)`:
builds the magnet request, posts it, and on a 201 response parses the body
and returns `torrent_info['id']`; any other status returns `None`; a
timeout is caught and returns `None`.  A 201 body that fails to parse or
lacks `id` raises (those exceptions are not caught here). -/
def add_torrent_to_rd (api_key : Option String) (magnet_hash : Option String)
    (torrent_name : Option String) (timeout : Nat) (outcome : RDOutcome) :
    Except PyError (Option String) :=
  match outcome with
  | .timeout => .ok none
  | .response status body =>
      if status = 201 then
        match body with
        | none => .error .jsonDecodeError
        | some kvs =>
            match pyLookup kvs "id" with
            | some tid => .ok (some tid)
            | none => .error .keyError
      else .ok none

/-! ## The reconciliation loop (`process_torrents`, main.py lines 259-294) -/

/-- The external world one reconciliation cycle runs against: the rclone
snapshot (`file_list`), the fuzzy-ratio function, the configured threshold,
the Real-Debrid credentials/timeout, and the outcome the service would give
for each submitted magnet hash. -/
structure CycleEnv where
  file_list : List String
  similarity : String → String → Nat
  match_threshold : Nat
  api_key : Option String
  timeout : Nat
  rdOutcome : Option String → RDOutcome

/-- Observable actions of one cycle, recorded per fetched record: a call of
`match_in_parallel`, a call of `add_torrent_to_rd`, and a
`update_torrent_status(conn, hash, 1)`. -/
inductive CycleEvent where
  | matchCall (r : TorrentRow)
  | submitCall (r : TorrentRow)
  | setSatisfied (hash : Option String)
deriving DecidableEq, Repr

/-- The body of the `for torrent_hash, torrent_name, status in torrents:`
loop (main.py lines 273-292) for one fetched record: skip if status is 1;
otherwise match (marking satisfied on a hit), else submit (marking
satisfied only when an id came back).  Returns the events performed and the
database afterwards; errors model uncaught exceptions leaving the loop. -/
def processOne (env : CycleEnv) (db : DB) (r : TorrentRow) :
    Except PyError (List CycleEvent × DB) :=
  if r.status = 1 then .ok ([], db)
  else
    match match_in_parallel env.similarity env.file_list r.torname env.match_threshold with
    | .error e => .error e
    | .ok true => .ok ([.matchCall r, .setSatisfied r.hash], update_torrent_status db r.hash 1)
    | .ok false =>
        match add_torrent_to_rd env.api_key r.hash r.torname env.timeout (env.rdOutcome r.hash) with
        | .error e => .error e
        | .ok (some _) =>
            .ok ([.matchCall r, .submitCall r, .setSatisfied r.hash], update_torrent_status db r.hash 1)
        | .ok none => .ok ([.matchCall r, .submitCall r], db)

/-- The whole loop over the fetched records (the list is fetched once, so
database updates made along the way do not change the iteration). -/
def processLoop (env : CycleEnv) : List TorrentRow → DB → Except PyError (List CycleEvent × DB)
  | [], db => .ok ([], db)
  | r :: rs, db =>
      match processOne env db r with
      | .error e => .error e
      | .ok (evs, db') =>
          match processLoop env rs db' with
          | .error e => .error e
          | .ok (evs', db'') => .ok (evs ++ evs', db'')

/-- Steps 4-5 of `process_torrents`: fetch all records once, then run the
loop (parsing and listing, steps 1-3, happen before and fix `env` and
`db`). -/
def process_torrents (env : CycleEnv) (db : DB) : Except PyError (List CycleEvent × DB) :=
  processLoop env (fetch_all_torrents db) db

/-! ## Startup (`load_settings` and `__main__`, main.py lines 31-52, 296-315) -/

/-- A JSON value a settings key can hold. -/
inductive SettingVal where
  | str (s : String)
  | num (n : Int)
  | boolean (b : Bool)
  | null
deriving DecidableEq, Repr

/-- `settings.get(key)`: `None` when absent (repeated JSON keys: last one
wins, as `json.load` builds the dict). -/
def pyGet (settings : List (String × SettingVal)) (key : String) : Option SettingVal :=
  (settings.reverse.find? (fun kv => kv.1 = key)).map (fun kv => kv.2)

/-- The arguments `__main__` hands to `process_torrents` (main.py lines
303-312): the four required keys via `settings.get(...)` — `None` when
missing — and the four numeric knobs via `settings.get(..., default)`. -/
structure ProcArgs where
  api_key : Option SettingVal
  mounted_path : Option SettingVal
  zurginfo_dir : Option SettingVal
  db_file : Option SettingVal
  execution_cycle : SettingVal
  timeout : SettingVal
  match_threshold : SettingVal
  api_delay : SettingVal
deriving DecidableEq, Repr

/-- What `__main__` does with the loaded settings. -/
inductive MainResult where
  /-- An exception reached the top-level handler before any reconciliation
  (here: the `ValueError("Settings could not be loaded.")` raised when the
  loaded settings are falsy); the error is logged and the process ends. -/
  | critical (msg : String)
  /-- `process_torrents` is invoked with these arguments. -/
  | runs (args : ProcArgs)
deriving DecidableEq, Repr

/-- `__main__` (main.py lines 296-315) applied to the mapping
`load_settings()` returned (that function yields `{}` on a missing or
unparsable settings file).  Only emptiness is checked; each individual key
is read with `.get`, so a missing required key becomes `None` and
reconciliation still runs. -/
def mainStartup (settings : List (String × SettingVal)) : MainResult :=
  if settings.isEmpty then .critical "Settings could not be loaded."
  else .runs
    { api_key := pyGet settings "REAL_DEBRID_API_KEY"
      mounted_path := pyGet settings "MOUNTED_PATH"
      zurginfo_dir := pyGet settings "ZURGINFOS_DIR"
      db_file := pyGet settings "DB_FILE"
      execution_cycle := (pyGet settings "EXECUTION_CYCLE").getD (.num 86400)
      timeout := (pyGet settings "REAL_DEBRID_TIMEOUT").getD (.num 30)
      match_threshold := (pyGet settings "MATCH_THRESHOLD").getD (.num 85)
      api_delay := (pyGet settings "REAL_DEBRID_API_DELAY").getD (.num 10) }

/-! ## Derived definitions used by the proofs and concrete fixtures -/

/-- The last record of `ts` whose hash SQL-equals `h` (the one whose UPDATE
wins within a run). -/
def lastWrite (ts : List TorrentRow) (h : Option String) : Option TorrentRow :=
  ts.reverse.find? (fun t => sqlEq t.hash h)

/-- Overwrite a row with the run's last write to its hash, if any. -/
def ovw (ts : List TorrentRow) (r : TorrentRow) : TorrentRow :=
  match lastWrite ts r.hash with
  | some t => { r with torname := t.torname, status := t.status }
  | none => r

/-- The rows a parse run appends to `db`: one per record whose hash is not
yet present (NULL hashes are never "present"), in first-occurrence order,
each carrying the run's final values for that hash. -/
def newRows : List TorrentRow → DB → List TorrentRow
  | [], _ => []
  | t :: ts, db =>
      if hashExists db t.hash then newRows ts db
      else ovw ts t :: newRows ts (db ++ [t])

/-- The non-NULL hash column values of the registry, in row order. -/
def dbHashes (db : DB) : List String := db.filterMap (fun r => r.hash)

/-- The registry is keyed: no two rows share a (non-NULL) hash, the intent
of `hash TEXT PRIMARY KEY`. -/
def dbKeyed (db : DB) : Prop := (dbHashes db).Nodup

instance (db : DB) : Decidable (dbKeyed db) :=
  inferInstanceAs (Decidable (dbHashes db).Nodup)

/-- Concrete instance of C5: a timeout and a 503 both yield `none` without
an exception, and the failed submission leaves the database unchanged while
the loop goes on. -/
def envC5 : CycleEnv :=
  { file_list := ["Some.Other.File"]
    similarity := fun _ _ => 0
    match_threshold := 85
    api_key := some "KEY"
    timeout := 30
    rdOutcome := fun _ => .timeout }

/-- Concrete instance of C8: with both records satisfied the cycle performs
no events at all and leaves the registry unchanged. -/
def envC8 : CycleEnv :=
  { file_list := ["Alpha.File", "Beta.File"]
    similarity := fun _ _ => 100
    match_threshold := 85
    api_key := some "KEY"
    timeout := 30
    rdOutcome := fun _ => .response 201 (some [("id", "RD1")]) }

/-- Environment for the C10 counterexample: the remote listing is empty
(exactly what a failed rclone listing produces), so the comprehension in
`match_in_parallel` never evaluates `torrent_name.lower()`. -/
def envC10empty : CycleEnv :=
  { file_list := []
    similarity := fun _ _ => 0
    match_threshold := 85
    api_key := some "KEY"
    timeout := 30
    rdOutcome := fun _ => .response 400 none }

/-- Concrete instance of the amended C10: with a nonempty listing, a fetched
pending record with a null name (as parsed from a `.zurginfo` without
`filename`) aborts the cycle with an exception. -/
def envC10full : CycleEnv :=
  { file_list := ["Some.File"]
    similarity := fun _ _ => 0
    match_threshold := 85
    api_key := some "KEY"
    timeout := 30
    rdOutcome := fun _ => .response 400 none }

/-- The `info` dictionary of the C4 fixture: `{b'name': b'A'}`. -/
def infoC4 : Bencode := .bdict (.cons nameKey (.str [0x41]) .nil)

/-! ## Evaluation checks of the embedding on concrete inputs -/

example : upsertDb [] ⟨some "H", some "N", 0⟩ = [⟨some "H", some "N", 0⟩] := by decide
example : upsertDb [⟨some "H", some "N", 1⟩] ⟨some "H", some "M", 0⟩ = [⟨some "H", some "M", 0⟩] := by decide
example : upsertDb [⟨none, some "N", 0⟩] ⟨none, some "N", 0⟩ = [⟨none, some "N", 0⟩, ⟨none, some "N", 0⟩] := by decide

example : bencodeEncode (.int (-42)) = [0x69, 0x2D, 0x34, 0x32, 0x65] := by decide
-- d4:name1:Ae, with the dict keys re-sorted canonically
example : bencodeEncode (.bdict (.cons [0x6E, 0x61, 0x6D, 0x65] (.str [0x41])
      (.cons [0x61] (.int 7) .nil))) =
    [0x64, 0x31, 0x3A, 0x61, 0x69, 0x37, 0x65,
     0x34, 0x3A, 0x6E, 0x61, 0x6D, 0x65, 0x31, 0x3A, 0x41, 0x65] := by decide

set_option maxRecDepth 4000 in
-- FIPS 180 test vector: SHA-1("abc")
example : sha1HexUpper [0x61, 0x62, 0x63] = "A9993E364706816ABA3E25717850C26C9CD0D89D" := by decide

set_option maxRecDepth 4000 in
-- SHA-1 of the empty message
example : sha1HexUpper [] = "DA39A3EE5E6B4B0D3255BFEF95601890AFD80709" := by decide

example : pyDecodeIgnore [0x41, 0xC3, 0xA9, 0x42] = "AéB" := by decide
example : pyDecodeIgnore [0xFF, 0x41] = "A" := by decide
example : utf8Decode .replace [0xFF, 0x41] = .ok ['�', 'A'] := by decide
example : utf8Decode .strict [0xFF, 0x41] = .error () := by decide

example : parseZurgtorrent (.int 3) = none := by decide
example : parseZurgtorrent (.bdict .nil) = none := by decide
example : parseZurgtorrent (.bdict (.cons infoKey (.bdict .nil) .nil)) = none := by decide

/-! ## General lemmas about the embedded operations -/

theorem sqlEq_comm (a b : Option String) : sqlEq a b = sqlEq b a := by
  cases a <;> cases b <;> simp [sqlEq, eq_comm]

theorem sqlEq_none_right (a : Option String) : sqlEq a none = false := by
  cases a <;> rfl

theorem sqlEq_refl_some (h : String) : sqlEq (some h) (some h) = true := by
  simp [sqlEq]

theorem updOne_hash (t r : TorrentRow) : (updOne t r).hash = r.hash := by
  unfold updOne; split <;> rfl

theorem hashExists_map_updOne (db : DB) (t : TorrentRow) (h : Option String) :
    hashExists (db.map (updOne t)) h = hashExists db h := by
  simp [hashExists, List.any_map, Function.comp_def, updOne_hash]

theorem hashExists_append_single (db : DB) (t : TorrentRow) (h : Option String) :
    hashExists (db ++ [t]) h = (hashExists db h || sqlEq t.hash h) := by
  simp [hashExists, List.any_append]

theorem hashExists_none (db : DB) : hashExists db none = false := by
  simp [hashExists, sqlEq_none_right]

theorem hashExists_upsertDb_self (db : DB) (t : TorrentRow) (h : String)
    (ht : t.hash = some h) : hashExists (upsertDb db t) t.hash = true := by
  unfold upsertDb insert_or_update_torrent
  by_cases he : hashExists db t.hash = true
  · simp [he, hashExists_map_updOne]
  · simp only [Bool.not_eq_true] at he
    rw [ht] at he
    simp [ht, he, hashExists_append_single, sqlEq_refl_some]

theorem hashExists_upsertDb_mono (db : DB) (t : TorrentRow) (h : Option String)
    (hh : hashExists db h = true) : hashExists (upsertDb db t) h = true := by
  unfold upsertDb insert_or_update_torrent
  by_cases he : hashExists db t.hash = true
  · simp [he, hashExists_map_updOne, hh]
  · simp only [Bool.not_eq_true] at he
    simp [he, hashExists_append_single, hh]

theorem hashExists_parseRun_mono (ts : List TorrentRow) (db : DB) (h : Option String)
    (hh : hashExists db h = true) : hashExists (parseRun ts db) h = true := by
  induction ts generalizing db with
  | nil => exact hh
  | cons t ts ih =>
      rw [parseRun, List.foldl_cons]
      exact ih (upsertDb db t) (hashExists_upsertDb_mono db t h hh)

theorem hashExists_parseRun_of_mem (ts : List TorrentRow) (db : DB) (t : TorrentRow)
    (hmem : t ∈ ts) (h : String) (ht : t.hash = some h) :
    hashExists (parseRun ts db) t.hash = true := by
  induction ts generalizing db with
  | nil => cases hmem
  | cons t' ts ih =>
      rw [parseRun, List.foldl_cons]
      rcases List.mem_cons.mp hmem with rfl | hmem'
      · exact hashExists_parseRun_mono ts _ t.hash (hashExists_upsertDb_self db t h ht)
      · exact ih (upsertDb db t') hmem'

/-! ## C7: the existence matcher -/

/-- C7 (confirmed): `match_in_parallel` returns true iff some remote entry's
case-folded similarity ratio to the torrent name meets or exceeds the
threshold, and it returns false on an empty remote listing (for any torrent
name, including a null one, since the comprehension then evaluates
nothing). -/
theorem c7_matcher_iff (similarity : String → String → Nat) (file_list : List String)
    (name : String) (anyName : Option String) (match_threshold : Nat) :
    match_in_parallel similarity file_list (some name) match_threshold =
      .ok (file_list.any (fun f => match_threshold ≤ similarity (pyLower name) (pyLower f)))
    ∧ match_in_parallel similarity [] anyName match_threshold = .ok false := by
  constructor
  · cases file_list <;> simp [match_in_parallel]
  · rfl

/-! ## C5: the submission client and failure handling -/

/-- C5 (confirmed): `add_torrent_to_rd` yields an id only from an accepted
(201) response; a timeout or any non-201 response yields `none` without an
exception; and in the loop a failed submission leaves the record's row (and
so its pending status) untouched while processing continues with the
remaining records. -/
theorem c5_submit_failure_handling (api_key magnet_hash torrent_name : Option String)
    (timeout : Nat) (outcome : RDOutcome) (env : CycleEnv) (db : DB) (r : TorrentRow)
    (rs : List TorrentRow) :
    (∀ tid, add_torrent_to_rd api_key magnet_hash torrent_name timeout outcome = .ok (some tid) →
        ∃ body, outcome = .response 201 body)
    ∧ (outcome = .timeout →
        add_torrent_to_rd api_key magnet_hash torrent_name timeout outcome = .ok none)
    ∧ (∀ status body, outcome = .response status body → status ≠ 201 →
        add_torrent_to_rd api_key magnet_hash torrent_name timeout outcome = .ok none)
    ∧ (r.status ≠ 1 →
        match_in_parallel env.similarity env.file_list r.torname env.match_threshold = .ok false →
        add_torrent_to_rd env.api_key r.hash r.torname env.timeout (env.rdOutcome r.hash) = .ok none →
        processOne env db r = .ok ([.matchCall r, .submitCall r], db)
        ∧ processLoop env (r :: rs) db =
            (processLoop env rs db).map
              (fun p => ([CycleEvent.matchCall r, CycleEvent.submitCall r] ++ p.1, p.2))) := by
  refine ⟨?_, ?_, ?_, ?_⟩
  · intro tid hok
    cases outcome with
    | timeout => simp [add_torrent_to_rd] at hok
    | response status body =>
        refine ⟨body, ?_⟩
        by_cases hs : status = 201
        · rw [hs]
        · simp [add_torrent_to_rd, hs] at hok
  · rintro rfl; rfl
  · rintro status body rfl hs
    simp [add_torrent_to_rd, hs]
  · intro hst hmatch hsub
    have hone : processOne env db r = .ok ([.matchCall r, .submitCall r], db) := by
      simp [processOne, hst, hmatch, hsub]
    refine ⟨hone, ?_⟩
    simp only [processLoop, hone]
    cases h : processLoop env rs db with
    | error e => simp [h, Except.map]
    | ok p => simp [h, Except.map]

theorem c5_witness :
    add_torrent_to_rd (some "KEY") (some "H1") (some "Alpha") 30 .timeout = .ok none
    ∧ add_torrent_to_rd (some "KEY") (some "H1") (some "Alpha") 30 (.response 503 none) = .ok none
    ∧ processOne envC5 [⟨some "H1", some "Alpha", 0⟩] ⟨some "H1", some "Alpha", 0⟩ =
        .ok ([.matchCall ⟨some "H1", some "Alpha", 0⟩, .submitCall ⟨some "H1", some "Alpha", 0⟩],
          [⟨some "H1", some "Alpha", 0⟩]) :=
  ⟨(c5_submit_failure_handling (some "KEY") (some "H1") (some "Alpha") 30 .timeout envC5 []
      ⟨some "H1", some "Alpha", 0⟩ []).2.1 rfl,
   (c5_submit_failure_handling (some "KEY") (some "H1") (some "Alpha") 30 (.response 503 none)
      envC5 [] ⟨some "H1", some "Alpha", 0⟩ []).2.2.1 503 none rfl (by decide),
   ((c5_submit_failure_handling (some "KEY") (some "H1") (some "Alpha") 30 .timeout envC5
      [⟨some "H1", some "Alpha", 0⟩] ⟨some "H1", some "Alpha", 0⟩ []).2.2.2 (by decide)
      (by decide) (by decide)).1⟩

/-! ## C8: satisfied records are skipped -/

theorem processOne_satisfied (env : CycleEnv) (db : DB) (r : TorrentRow)
    (hst : r.status = 1) : processOne env db r = .ok ([], db) := by
  simp [processOne, hst]

theorem processOne_events (env : CycleEnv) (db : DB) (r : TorrentRow)
    (evs : List CycleEvent) (db' : DB) (hok : processOne env db r = .ok (evs, db'))
    (r' : TorrentRow) (hev : CycleEvent.matchCall r' ∈ evs ∨ CycleEvent.submitCall r' ∈ evs) :
    r' = r ∧ r.status ≠ 1 := by
  by_cases hst : r.status = 1
  · rw [processOne_satisfied env db r hst] at hok
    injection hok with hok
    injection hok with h1 h2
    subst h1
    rcases hev with h | h <;> cases h
  · unfold processOne at hok
    rw [if_neg hst] at hok
    rcases hm : match_in_parallel env.similarity env.file_list r.torname env.match_threshold with
      _ | b
    · rw [hm] at hok; cases hok
    · rw [hm] at hok
      cases b
      · rcases ha : add_torrent_to_rd env.api_key r.hash r.torname env.timeout
            (env.rdOutcome r.hash) with _ | o
        · rw [ha] at hok; cases hok
        · rw [ha] at hok
          cases o with
          | none =>
              injection hok with hok
              cases hok
              rcases hev with h | h <;>
                simp only [List.mem_cons, List.not_mem_nil, or_false] at h <;>
                rcases h with h | h <;> cases h <;> exact ⟨rfl, hst⟩
          | some tid =>
              injection hok with hok
              cases hok
              rcases hev with h | h <;>
                simp only [List.mem_cons, List.not_mem_nil, or_false] at h <;>
                rcases h with h | h | h <;> cases h <;> exact ⟨rfl, hst⟩
      · injection hok with hok
        cases hok
        rcases hev with h | h <;>
          simp only [List.mem_cons, List.not_mem_nil, or_false] at h <;>
          rcases h with h | h <;> cases h <;> exact ⟨rfl, hst⟩

theorem processLoop_events (env : CycleEnv) (ts : List TorrentRow) (db : DB)
    (evs : List CycleEvent) (db' : DB) (hok : processLoop env ts db = .ok (evs, db'))
    (r : TorrentRow) (hev : CycleEvent.matchCall r ∈ evs ∨ CycleEvent.submitCall r ∈ evs) :
    r.status ≠ 1 := by
  induction ts generalizing db evs db' with
  | nil =>
      rw [processLoop] at hok
      injection hok with hok
      injection hok with h1 h2
      subst h1
      rcases hev with h | h <;> cases h
  | cons t ts ih =>
      rw [processLoop] at hok
      rcases h1 : processOne env db t with _ | ⟨evs₀, db₀⟩
      · rw [h1] at hok; cases hok
      · rw [h1] at hok
        dsimp only at hok
        rcases h2 : processLoop env ts db₀ with _ | ⟨evs₁, db₁⟩
        · rw [h2] at hok; cases hok
        · rw [h2] at hok
          dsimp only at hok
          injection hok with hok
          injection hok with h3 h4
          subst h3
          rcases hev with h | h
          · rcases List.mem_append.mp h with h | h
            · obtain ⟨rfl, hne⟩ := processOne_events env db t evs₀ db₀ h1 r (.inl h)
              exact hne
            · exact ih db₀ evs₁ db₁ h2 (.inl h)
          · rcases List.mem_append.mp h with h | h
            · obtain ⟨rfl, hne⟩ := processOne_events env db t evs₀ db₀ h1 r (.inr h)
              exact hne
            · exact ih db₀ evs₁ db₁ h2 (.inr h)

theorem processLoop_all_satisfied (env : CycleEnv) (ts : List TorrentRow) (db : DB)
    (hsat : ∀ r ∈ ts, r.status = 1) : processLoop env ts db = .ok ([], db) := by
  induction ts with
  | nil => rfl
  | cons t ts ih =>
      rw [processLoop, processOne_satisfied env db t (hsat t (List.mem_cons_self t ts))]
      dsimp only
      rw [ih (fun r hr => hsat r (List.mem_cons_of_mem t hr))]
      rfl

/-- C8 (confirmed): a record fetched with status `satisfied` contributes no
match computation and no submission call to the cycle's events (every
`matchCall`/`submitCall` in a completed loop's trace belongs to a record
whose fetched status was not 1), and a cycle over a registry whose records
are all satisfied completes with no events — in particular zero submission
calls — and an unchanged database. -/
theorem c8_skip_satisfied (env : CycleEnv) (db : DB) (ts : List TorrentRow)
    (evs : List CycleEvent) (db' : DB) (r : TorrentRow) :
    (processLoop env ts db = .ok (evs, db') →
      (CycleEvent.matchCall r ∈ evs ∨ CycleEvent.submitCall r ∈ evs) → r.status ≠ 1)
    ∧ ((∀ x ∈ fetch_all_torrents db, x.status = 1) → process_torrents env db = .ok ([], db)) :=
  ⟨fun hok hev => processLoop_events env ts db evs db' hok r hev,
   fun hsat => processLoop_all_satisfied env (fetch_all_torrents db) db hsat⟩

theorem c8_witness :
    process_torrents envC8 [⟨some "H1", some "Alpha", 1⟩, ⟨some "H2", some "Beta", 1⟩] =
      .ok ([], [⟨some "H1", some "Alpha", 1⟩, ⟨some "H2", some "Beta", 1⟩]) :=
  (c8_skip_satisfied envC8 [⟨some "H1", some "Alpha", 1⟩, ⟨some "H2", some "Beta", 1⟩]
    [] [] [] ⟨some "H1", some "Alpha", 1⟩).2 (by decide)

/-! ## C10: null display names and the matching step -/

/-- C10 (counterexample): the claim says the loop is exception-free only
when every fetched pending record has a non-null name.  Here a pending
record with a null name is fetched, yet the cycle completes without an
exception, because with an empty remote listing the matcher's comprehension
never touches the name. -/
theorem c10_counterexample :
    (⟨some "H1", none, 0⟩ : TorrentRow) ∈ fetch_all_torrents [⟨some "H1", none, 0⟩]
    ∧ (⟨some "H1", none, 0⟩ : TorrentRow).status ≠ 1
    ∧ (⟨some "H1", none, 0⟩ : TorrentRow).torname = none
    ∧ process_torrents envC10empty [⟨some "H1", none, 0⟩] =
        .ok ([.matchCall ⟨some "H1", none, 0⟩, .submitCall ⟨some "H1", none, 0⟩],
          [⟨some "H1", none, 0⟩]) := by
  refine ⟨List.mem_singleton.mpr rfl, by decide, rfl, by decide⟩

/-- C10 (amended): a `.zurginfo` sidecar lacking the `filename` field does
store a null name, and — provided the remote listing is nonempty — a
fetched pending record with a null name makes the cycle raise
(`torrent_name.lower()` on `None`) instead of being skipped.  With an empty
listing the name is never evaluated, which is the one correction to the
claim. -/
theorem c10_null_name_raises_amended (env : CycleEnv) (ts : List TorrentRow) (db : DB)
    (d : ZurginfoData) :
    (d.filename = none → (zurginfoRecord d).torname = none)
    ∧ (env.file_list ≠ [] → (∃ r ∈ ts, r.status ≠ 1 ∧ r.torname = none) →
        ∃ e, processLoop env ts db = .error e) := by
  constructor
  · intro hf
    simp [zurginfoRecord, hf]
  · intro hfl ⟨r, hmem, hst, hname⟩
    induction ts generalizing db with
    | nil => cases hmem
    | cons t ts ih =>
        rcases List.mem_cons.mp hmem with rfl | hmem'
        · have hmatch : match_in_parallel env.similarity env.file_list r.torname
              env.match_threshold = .error .attributeError := by
            cases hl : env.file_list with
            | nil => exact absurd hl hfl
            | cons f fs => rw [hname]; rfl
          refine ⟨.attributeError, ?_⟩
          rw [processLoop]
          have hone : processOne env db r = .error .attributeError := by
            unfold processOne
            rw [if_neg hst, hmatch]
          rw [hone]
        · rcases h1 : processOne env db t with _ | ⟨evs₀, db₀⟩
          · exact ⟨_, by rw [processLoop, h1]⟩
          · obtain ⟨e, he⟩ := ih db₀ hmem'
            refine ⟨e, ?_⟩
            rw [processLoop, h1]
            dsimp only
            rw [he]

theorem c10_witness :
    (zurginfoRecord ⟨some "H1", none⟩).torname = none
    ∧ ∃ e, processLoop envC10full [⟨some "H1", none, 0⟩] [⟨some "H1", none, 0⟩] = .error e :=
  ⟨(c10_null_name_raises_amended envC10full [⟨some "H1", none, 0⟩] [⟨some "H1", none, 0⟩]
      ⟨some "H1", none⟩).1 rfl,
   (c10_null_name_raises_amended envC10full [⟨some "H1", none, 0⟩] [⟨some "H1", none, 0⟩]
      ⟨some "H1", none⟩).2 (by decide) (by decide)⟩

/-! ## C6: startup with missing configuration keys -/

/-- C6 (counterexample): a configuration mapping missing the required API
credential key is not fatal — `__main__` still invokes `process_torrents`,
with `None` for the missing key (so reconciliation work proceeds). -/
theorem c6_counterexample :
    mainStartup [("MOUNTED_PATH", .str "/mnt/remote"), ("ZURGINFOS_DIR", .str "/data/infos"),
        ("DB_FILE", .str "/data/torrents.db")] =
      .runs
        { api_key := none
          mounted_path := some (.str "/mnt/remote")
          zurginfo_dir := some (.str "/data/infos")
          db_file := some (.str "/data/torrents.db")
          execution_cycle := .num 86400
          timeout := .num 30
          match_threshold := .num 85
          api_delay := .num 10 } := by
  decide

/-- C6 (amended): startup is fatal precisely when the loaded settings
mapping is empty (which is what `load_settings` returns for a missing or
unparsable file); a nonempty mapping always reaches `process_torrents`,
with each individually missing key silently defaulting (`None` for the four
required keys). -/
theorem c6_startup_fatal_amended (settings : List (String × SettingVal)) :
    (∃ msg, mainStartup settings = .critical msg) ↔ settings = [] := by
  cases settings with
  | nil => exact ⟨fun _ => rfl, fun _ => ⟨"Settings could not be loaded.", rfl⟩⟩
  | cons kv rest =>
      constructor
      · rintro ⟨msg, hmsg⟩
        rw [mainStartup] at hmsg
        simp at hmsg
      · intro h
        cases h

/-! ## C3: a .zurginfo without a hash field -/

/-- C3 (code bug): the spec says a record with a null/absent hash is
discarded, but the code inserts it.  A `.zurginfo` lacking `hash` yields a
torrent dict with a NULL hash; the `WHERE hash = ?` existence probe never
matches NULL, so `insert_or_update_torrent` INSERTs a NULL-hash row (SQLite
permits NULL in a TEXT PRIMARY KEY) — and inserts another one on every
reparse of the same file. -/
theorem c3_null_hash_inserted :
    zurginfoRecord ⟨none, some "Movie"⟩ = ⟨none, some "Movie", 0⟩
    ∧ insert_or_update_torrent [] ⟨none, some "Movie", 0⟩ = ([⟨none, some "Movie", 0⟩], true)
    ∧ insert_or_update_torrent [⟨none, some "Movie", 0⟩] ⟨none, some "Movie", 0⟩ =
        ([⟨none, some "Movie", 0⟩, ⟨none, some "Movie", 0⟩], true) := by
  decide

/-! ## C1: status monotonicity -/

/-- C1 (counterexample): a reachable operation sequence — parse a sidecar,
have the orchestrator mark it satisfied, then re-parse the same sidecar —
ends with the record back at `pending`: the parser's upsert UPDATEs
`status` to its constant payload 0, so `satisfied → pending` does happen. -/
theorem c1_counterexample :
    applyOps [] [.parseUpsert (some "H1") (some "Alpha"), .orchSetSatisfied (some "H1")] =
      [⟨some "H1", some "Alpha", 1⟩]
    ∧ applyOps []
        [.parseUpsert (some "H1") (some "Alpha"), .orchSetSatisfied (some "H1"),
         .parseUpsert (some "H1") (some "Alpha")] =
      [⟨some "H1", some "Alpha", 0⟩] := by
  decide

/-- C1 (amended): the orchestrator's own status updates are monotone — they
only ever write `satisfied`, so they never take a record from satisfied
back to pending — but the parser's upsert of an already-stored hash
overwrites the row's status with the parsed payload's `pending`, so
monotonicity fails exactly on re-parses of known hashes (the
counterexample). -/
theorem c1_status_monotonicity_amended (db : DB) (hs : Option String) (i : Nat)
    (r : TorrentRow) (h : String) (n : Option String) :
    (db[i]? = some r → (applyOp db (.orchSetSatisfied hs))[i]? =
        some (if sqlEq r.hash hs then { r with status := 1 } else r))
    ∧ (db[i]? = some r → r.hash = some h → hashExists db (some h) = true →
        (applyOp db (.parseUpsert (some h) n))[i]? =
          some { r with torname := n, status := 0 }) := by
  constructor
  · intro hi
    simp [applyOp, update_torrent_status, List.getElem?_map, hi]
  · intro hi hrh he
    have hup : upsertDb db { hash := some h, torname := n, status := 0 } =
        db.map (updOne { hash := some h, torname := n, status := 0 }) := by
      unfold upsertDb insert_or_update_torrent
      rw [if_pos he]
    simp only [applyOp, hup, List.getElem?_map, hi, Option.map_some]
    have : sqlEq r.hash (some h) = true := by rw [hrh]; exact sqlEq_refl_some h
    simp [updOne, this]

theorem c1_witness :
    (applyOp [⟨some "H1", some "Alpha", 1⟩] (.orchSetSatisfied (some "H2")))[0]? =
      some ⟨some "H1", some "Alpha", 1⟩
    ∧ (applyOp [⟨some "H1", some "Alpha", 1⟩] (.parseUpsert (some "H1") (some "Alpha")))[0]? =
      some ⟨some "H1", some "Alpha", 0⟩ := by
  constructor
  · have := (c1_status_monotonicity_amended [⟨some "H1", some "Alpha", 1⟩] (some "H2") 0
      ⟨some "H1", some "Alpha", 1⟩ "H1" (some "Alpha")).1 rfl
    simpa using this
  · have := (c1_status_monotonicity_amended [⟨some "H1", some "Alpha", 1⟩] (some "H2") 0
      ⟨some "H1", some "Alpha", 1⟩ "H1" (some "Alpha")).2 rfl rfl (by decide)
    simpa using this

/-! ## C4: infohash derivation for .zurgtorrent files -/

theorem sha1_length (msg : List Nat) : (sha1 msg).length = 20 := by
  simp [sha1, wordBytes]

/-- C4 (confirmed): for every decoded `.zurgtorrent` dictionary with a
top-level `info` entry, the stored hash of the record (when one is stored)
is exactly the uppercased lowercase-hex digest of the SHA-1 of the
canonical bencoded re-encoding of the `info` value, and that digest is 20
bytes long. -/
theorem c4_infohash_derivation (kvs : BPairs) (info : Bencode) (row : TorrentRow) :
    lookupKey infoKey kvs = some info →
    parseZurgtorrent (.bdict kvs) = some row →
    row.hash = some (pyUpper (hexdigest (sha1 (bencodeEncode info))))
    ∧ (sha1 (bencodeEncode info)).length = 20 := by
  intro hinfo hrow
  refine ⟨?_, sha1_length _⟩
  unfold parseZurgtorrent at hrow
  dsimp only at hrow
  rw [hinfo] at hrow
  cases info with
  | int n => cases hrow
  | str s => cases hrow
  | blist xs => cases hrow
  | bdict ikvs =>
      dsimp only at hrow
      rcases hname : lookupKey nameKey ikvs with _ | nameVal
      · rw [hname] at hrow; cases hrow
      · rw [hname] at hrow
        dsimp only at hrow
        injection hrow with hrow
        rw [← hrow]
        rfl

set_option maxRecDepth 8000 in
/-- Concrete instance of C4 at a known fixture: the canonical re-encoding of
`infoC4` is `d4:name1:Ae` and the stored hash equals its independently
computed SHA-1 digest `FEFEAD7B68695F1A1649C3ADB62CFC7FD2CF9F3D`, which is
20 bytes long. -/
theorem c4_witness :
    (⟨some "FEFEAD7B68695F1A1649C3ADB62CFC7FD2CF9F3D", some "A", 0⟩ : TorrentRow).hash =
      some (pyUpper (hexdigest (sha1 (bencodeEncode infoC4))))
    ∧ (sha1 (bencodeEncode infoC4)).length = 20 :=
  c4_infohash_derivation (.cons infoKey infoC4 .nil) infoC4
    ⟨some "FEFEAD7B68695F1A1649C3ADB62CFC7FD2CF9F3D", some "A", 0⟩
    (by decide) (by decide)

/-! ## C9: display-name decoding -/

theorem utf8DecodeF_ignore_ok (fuel : Nat) (bs : List Nat) :
    ∃ cs, utf8DecodeF .ignore fuel bs = .ok cs := by
  induction fuel generalizing bs with
  | zero => cases bs <;> exact ⟨[], rfl⟩
  | succ fuel ih =>
      cases bs with
      | nil => exact ⟨[], rfl⟩
      | cons b rest =>
          rcases hstep : utf8Step b rest with ⟨res, rem⟩
          cases res with
          | ok c =>
              obtain ⟨cs, hcs⟩ := ih rem
              refine ⟨c :: cs, ?_⟩
              simp only [utf8DecodeF]
              rw [hstep]
              dsimp only
              rw [hcs]
              rfl
          | error e =>
              obtain ⟨cs, hcs⟩ := ih rem
              refine ⟨cs, ?_⟩
              simp only [utf8DecodeF]
              rw [hstep]
              exact hcs

/-- The `ignore` error handler never raises: decoding any byte list
succeeds, and `pyDecodeIgnore` is the string it produces. -/
theorem utf8Decode_ignore_ok (bs : List Nat) :
    ∃ cs, utf8Decode .ignore bs = .ok cs ∧ pyDecodeIgnore bs = String.mk cs := by
  obtain ⟨cs, hcs⟩ := utf8DecodeF_ignore_ok bs.length bs
  exact ⟨cs, hcs, by simp [pyDecodeIgnore, utf8Decode, hcs, Except.toOption]⟩

set_option maxRecDepth 8000 in
/-- C9 (counterexample): the claim says invalid byte sequences in
`info.name` are replaced; the code passes `'ignore'`, which drops them.
For the name bytes `FF 41`, the stored display name is `"A"`, while
replacement decoding yields `"� A"`-style output, which differs. -/
theorem c9_counterexample :
    (parseZurgtorrent (.bdict (.cons infoKey
        (.bdict (.cons nameKey (.str [0xFF, 0x41]) .nil)) .nil))).bind (fun r => r.torname) =
      some "A"
    ∧ utf8Decode .replace [0xFF, 0x41] = .ok ['�', 'A']
    ∧ ("A" : String) ≠ String.mk ['�', 'A'] := by
  decide

/-- C9 (amended): for a bencoded sidecar whose `info.name` is a byte
string, the stored display name is its UTF-8 decoding with invalid byte
sequences ignored (dropped) — not replaced — and that decoding never raises
for any byte-string input. -/
theorem c9_name_decoding_amended (kvs ikvs : BPairs) (bs : List Nat) :
    (lookupKey infoKey kvs = some (.bdict ikvs) →
      lookupKey nameKey ikvs = some (.str bs) →
      parseZurgtorrent (.bdict kvs) =
        some ⟨some (sha1HexUpper (bencodeEncode (.bdict ikvs))),
          some (pyDecodeIgnore bs), 0⟩)
    ∧ ∃ cs, utf8Decode .ignore bs = .ok cs ∧ pyDecodeIgnore bs = String.mk cs := by
  refine ⟨?_, utf8Decode_ignore_ok bs⟩
  intro h1 h2
  unfold parseZurgtorrent
  dsimp only
  rw [h1]
  dsimp only
  rw [h2]
  rfl

theorem c9_witness :
    parseZurgtorrent (.bdict (.cons infoKey
        (.bdict (.cons nameKey (.str [0xFF, 0x41]) .nil)) .nil)) =
      some ⟨some (sha1HexUpper (bencodeEncode (.bdict (.cons nameKey (.str [0xFF, 0x41]) .nil)))),
        some (pyDecodeIgnore [0xFF, 0x41]), 0⟩ :=
  (c9_name_decoding_amended (.cons infoKey (.bdict (.cons nameKey (.str [0xFF, 0x41]) .nil)) .nil)
    (.cons nameKey (.str [0xFF, 0x41]) .nil) [0xFF, 0x41]).1 (by decide) (by decide)

/-! ## C2: idempotence of re-parsing

The proof goes through an explicit characterization of a parse run: it
rewrites every existing row with the run's last write to that row's hash
and appends one row per newly seen hash (carrying the run's last write for
it), in first-occurrence order. -/

theorem lastWrite_nil (h : Option String) : lastWrite [] h = none := rfl

theorem lastWrite_cons (t : TorrentRow) (ts : List TorrentRow) (h : Option String) :
    lastWrite (t :: ts) h =
      (lastWrite ts h).or (if sqlEq t.hash h then some t else none) := by
  unfold lastWrite
  rw [List.reverse_cons, List.find?_append]
  cases hq : sqlEq t.hash h
  · simp [List.find?_cons_of_neg, hq]
  · simp [List.find?_cons_of_pos, hq]

theorem lastWrite_none (ts : List TorrentRow) : lastWrite ts none = none := by
  simp [lastWrite, List.find?_eq_none, sqlEq_none_right]

theorem ovw_hash (ts : List TorrentRow) (r : TorrentRow) : (ovw ts r).hash = r.hash := by
  unfold ovw
  rcases lastWrite ts r.hash with _ | t <;> rfl

theorem ovw_nil (r : TorrentRow) : ovw [] r = r := rfl

theorem ovw_updOne (ts : List TorrentRow) (t r : TorrentRow) :
    ovw ts (updOne t r) = ovw (t :: ts) r := by
  unfold ovw
  rw [updOne_hash, lastWrite_cons]
  rcases hlw : lastWrite ts r.hash with _ | u
  · cases hq : sqlEq t.hash r.hash
    · rw [if_neg (by simp [hq])]
      unfold updOne
      rw [sqlEq_comm r.hash t.hash, hq]
      simp
    · rw [if_pos (by simp [hq])]
      unfold updOne
      rw [sqlEq_comm r.hash t.hash, hq]
      simp
  · rfl

theorem ovw_cons_not_written (ts : List TorrentRow) (t r : TorrentRow)
    (hq : sqlEq t.hash r.hash = false) : ovw (t :: ts) r = ovw ts r := by
  unfold ovw
  rw [lastWrite_cons, hq]
  simp

theorem newRows_congr (ts : List TorrentRow) (db₁ db₂ : DB)
    (hc : ∀ h, hashExists db₁ h = hashExists db₂ h) : newRows ts db₁ = newRows ts db₂ := by
  induction ts generalizing db₁ db₂ with
  | nil => rfl
  | cons t ts ih =>
      rw [newRows, newRows, hc t.hash]
      by_cases he : hashExists db₂ t.hash = true
      · rw [if_pos he, if_pos he]
        exact ih db₁ db₂ hc
      · rw [if_neg he, if_neg he]
        rw [ih (db₁ ++ [t]) (db₂ ++ [t])
          (fun h => by rw [hashExists_append_single, hashExists_append_single, hc])]

/-- Characterization of a parse run: existing rows are rewritten with the
run's last write to their hash, and one new row is appended per newly seen
hash, in first-occurrence order. -/
theorem parseRun_eq (ts : List TorrentRow) (db : DB) :
    parseRun ts db = db.map (ovw ts) ++ newRows ts db := by
  induction ts generalizing db with
  | nil =>
      rw [parseRun, List.foldl_nil, newRows, List.append_nil]
      rw [List.map_congr_left (fun r _ => ovw_nil r)]
      simp
  | cons t ts ih =>
      rw [parseRun, List.foldl_cons, ← parseRun]
      by_cases he : hashExists db t.hash = true
      · have hup : upsertDb db t = db.map (updOne t) := by
          unfold upsertDb insert_or_update_torrent
          rw [if_pos he]
        rw [hup, ih, newRows, if_pos he]
        rw [newRows_congr ts (db.map (updOne t)) db (fun h => hashExists_map_updOne db t h)]
        rw [List.map_map, List.map_congr_left (fun r _ => by
          show ovw ts (updOne t r) = ovw (t :: ts) r
          exact ovw_updOne ts t r)]
      · simp only [Bool.not_eq_true] at he
        have hup : upsertDb db t = db ++ [t] := by
          unfold upsertDb insert_or_update_torrent
          rw [if_neg (by simp [he])]
        rw [hup, ih, newRows, if_neg (by simp [he])]
        rw [List.map_append]
        have hdb : db.map (ovw ts) = db.map (ovw (t :: ts)) := by
          apply List.map_congr_left
          intro r hr
          have hq : sqlEq t.hash r.hash = false := by
            have := List.any_eq_false.mp (by simpa [hashExists] using he) r hr
            rw [sqlEq_comm]
            simpa using this
          exact (ovw_cons_not_written ts t r hq).symm
        rw [List.map_singleton, hdb, List.append_assoc]
        rfl

theorem ovw_eq_some (ts : List TorrentRow) (r u : TorrentRow)
    (h : lastWrite ts r.hash = some u) :
    ovw ts r = { r with torname := u.torname, status := u.status } := by
  unfold ovw
  rw [h]

theorem ovw_eq_none (ts : List TorrentRow) (r : TorrentRow)
    (h : lastWrite ts r.hash = none) : ovw ts r = r := by
  unfold ovw
  rw [h]

theorem ovw_idem (ts : List TorrentRow) (r : TorrentRow) : ovw ts (ovw ts r) = ovw ts r := by
  rcases hlw : lastWrite ts r.hash with _ | u
  · rw [ovw_eq_none ts r hlw, ovw_eq_none ts r hlw]
  · rw [ovw_eq_some ts r u hlw]
    rw [ovw_eq_some ts _ u (by
      rw [show ({ r with torname := u.torname, status := u.status } : TorrentRow).hash = r.hash
        from rfl, hlw])]

theorem lastWrite_append (l1 l2 : List TorrentRow) (h : Option String) :
    lastWrite (l1 ++ l2) h = (lastWrite l2 h).or (lastWrite l1 h) := by
  simp [lastWrite, List.reverse_append, List.find?_append]

theorem ovw_shift (pre ts' : List TorrentRow) (t' : TorrentRow) :
    ovw (pre ++ t' :: ts') (ovw ts' t') = ovw ts' t' := by
  rcases ht : t'.hash with _ | hh
  · rw [ovw_eq_none ts' t' (by rw [ht, lastWrite_none])]
    exact ovw_eq_none _ t' (by rw [ht, lastWrite_none])
  · have hfull : lastWrite (pre ++ t' :: ts') t'.hash =
        ((lastWrite ts' t'.hash).or (some t')).or (lastWrite pre t'.hash) := by
      rw [lastWrite_append, lastWrite_cons,
        if_pos (by rw [ht]; exact sqlEq_refl_some hh)]
    rcases hlw : lastWrite ts' t'.hash with _ | u
    · rw [ovw_eq_none ts' t' hlw]
      rw [ovw_eq_some _ t' t' (by rw [hfull, hlw]; rfl)]
    · rw [ovw_eq_some ts' t' u hlw]
      rw [ovw_eq_some _ _ u (by
        rw [show ({ t' with torname := u.torname, status := u.status } : TorrentRow).hash = t'.hash
          from rfl]
        rw [hfull, hlw]
        rfl)]

theorem newRows_fixed (ts : List TorrentRow) (db : DB) (pre : List TorrentRow) :
    (newRows ts db).map (ovw (pre ++ ts)) = newRows ts db := by
  induction ts generalizing db pre with
  | nil => rfl
  | cons t ts ih =>
      rw [newRows]
      by_cases he : hashExists db t.hash = true
      · rw [if_pos he]
        have h := ih db (pre ++ [t])
        rwa [List.append_assoc, List.singleton_append] at h
      · rw [if_neg he, List.map_cons, ovw_shift pre ts t]
        have h := ih (db ++ [t]) (pre ++ [t])
        rw [List.append_assoc, List.singleton_append] at h
        rw [h]

theorem newRows_nil_of_exists (ts : List TorrentRow) (db : DB)
    (hex : ∀ t ∈ ts, hashExists db t.hash = true) : newRows ts db = [] := by
  induction ts with
  | nil => rfl
  | cons t ts ih =>
      rw [newRows, if_pos (hex t (List.mem_cons_self t ts))]
      exact ih (fun u hu => hex u (List.mem_cons_of_mem t hu))

theorem parseRun_idem (ts : List TorrentRow) (db : DB)
    (hs : ∀ t ∈ ts, t.hash ≠ none) :
    parseRun ts (parseRun ts db) = parseRun ts db := by
  have hex : ∀ t ∈ ts, hashExists (parseRun ts db) t.hash = true := by
    intro t ht
    rcases hh : t.hash with _ | h
    · exact absurd hh (hs t ht)
    · have h2 := hashExists_parseRun_of_mem ts db t ht h hh
      rwa [hh] at h2
  rw [parseRun_eq ts (parseRun ts db), newRows_nil_of_exists ts _ hex, List.append_nil]
  rw [parseRun_eq ts db, List.map_append, List.map_map]
  congr 1
  · exact List.map_congr_left (fun r _ => ovw_idem ts r)
  · exact newRows_fixed ts db []

theorem dbHashes_map_updOne (db : DB) (t : TorrentRow) :
    dbHashes (db.map (updOne t)) = dbHashes db := by
  simp [dbHashes, List.filterMap_map, Function.comp_def, updOne_hash]

theorem dbKeyed_upsertDb (db : DB) (t : TorrentRow) (hk : dbKeyed db) :
    dbKeyed (upsertDb db t) := by
  unfold upsertDb insert_or_update_torrent
  by_cases he : hashExists db t.hash = true
  · rw [if_pos he]
    unfold dbKeyed
    rw [show (List.map (updOne t) db, false).1 = List.map (updOne t) db from rfl,
      dbHashes_map_updOne]
    exact hk
  · rw [if_neg he]
    simp only [Bool.not_eq_true] at he
    unfold dbKeyed dbHashes
    rw [show ((db ++ [t], true) : DB × Bool).1 = db ++ [t] from rfl, List.filterMap_append]
    rcases ht : t.hash with _ | hh
    · have hft : List.filterMap (fun r => r.hash) [t] = [] := by
        simp [List.filterMap_cons, List.filterMap_nil, ht]
      rw [hft, List.append_nil]
      exact hk
    · have hnot : hh ∉ dbHashes db := by
        intro hmem
        obtain ⟨r, hr, hrh⟩ := List.mem_filterMap.mp hmem
        have hfalse := List.any_eq_false.mp (by simpa [hashExists] using he) r hr
        rw [ht, hrh] at hfalse
        simp [sqlEq] at hfalse
      have hft : List.filterMap (fun r => r.hash) [t] = [hh] := by
        rw [List.filterMap_cons_some (by simpa using ht), List.filterMap_nil]
      rw [hft, List.nodup_append]
      refine ⟨hk, List.nodup_singleton hh, ?_⟩
      intro a ha hb
      rw [List.mem_singleton.mp hb] at ha
      exact hnot ha

theorem dbKeyed_parseRun (ts : List TorrentRow) (db : DB) (hk : dbKeyed db) :
    dbKeyed (parseRun ts db) := by
  induction ts generalizing db with
  | nil => exact hk
  | cons t ts ih =>
      rw [parseRun, List.foldl_cons]
      exact ih (upsertDb db t) (dbKeyed_upsertDb db t hk)

/-- C2 (counterexample): the claim fails when a sidecar lacks its hash
field (see C3): re-parsing the resulting NULL-hash record inserts a second
row, so the registry after the second parse run differs from the registry
after the first. -/
theorem c2_counterexample :
    parseRun [⟨none, some "Movie", 0⟩] [] = [⟨none, some "Movie", 0⟩]
    ∧ parseRun [⟨none, some "Movie", 0⟩] (parseRun [⟨none, some "Movie", 0⟩] []) =
        [⟨none, some "Movie", 0⟩, ⟨none, some "Movie", 0⟩]
    ∧ parseRun [⟨none, some "Movie", 0⟩] (parseRun [⟨none, some "Movie", 0⟩] []) ≠
        parseRun [⟨none, some "Movie", 0⟩] [] := by
  decide

/-- C2 (amended): provided every parsed record carries a (non-null) hash —
which holds for every `.zurgtorrent` and for every `.zurginfo` with a
`hash` field — re-running the same parse is idempotent: the registry after
the second run equals the registry after the first, and a keyed registry
stays keyed (exactly one row per distinct hash; the upsert inserts only for
an unseen hash and otherwise updates in place). -/
theorem c2_reparse_idempotent_amended (ts : List TorrentRow) (db : DB)
    (hs : ∀ t ∈ ts, t.hash ≠ none) (hk : dbKeyed db) :
    parseRun ts (parseRun ts db) = parseRun ts db ∧ dbKeyed (parseRun ts db) :=
  ⟨parseRun_idem ts db hs, dbKeyed_parseRun ts db hk⟩

theorem c2_witness :
    parseRun [⟨some "H1", some "Alpha", 0⟩, ⟨some "H2", some "Beta", 0⟩,
        ⟨some "H1", some "Alpha2", 0⟩]
      (parseRun [⟨some "H1", some "Alpha", 0⟩, ⟨some "H2", some "Beta", 0⟩,
        ⟨some "H1", some "Alpha2", 0⟩] []) =
      parseRun [⟨some "H1", some "Alpha", 0⟩, ⟨some "H2", some "Beta", 0⟩,
        ⟨some "H1", some "Alpha2", 0⟩] []
    ∧ dbKeyed (parseRun [⟨some "H1", some "Alpha", 0⟩, ⟨some "H2", some "Beta", 0⟩,
        ⟨some "H1", some "Alpha2", 0⟩] []) :=
  c2_reparse_idempotent_amended
    [⟨some "H1", some "Alpha", 0⟩, ⟨some "H2", some "Beta", 0⟩, ⟨some "H1", some "Alpha2", 0⟩]
    [] (by decide) (by decide)
